import Mathlib

/-!
Verification development for the configuration-resolution and startup-orchestration
layer of the btcd daemon (files `config.go` and the main orchestration file).

Go strings are byte sequences; the address and option strings handled by this code
are ASCII, so strings are modelled as lists of characters (`GoString`).  External
collaborators (the `net` standard-library split/join helpers, the flags parser, the
database backend registry, the address codec of the btcutil package, the btcnet
network-parameter records and the socks/tor dialers) are modelled as explicit
inputs: deterministic pure functions recorded in an environment structure.
-/

abbrev GoString := List Char

deriving instance DecidableEq for Except

/-- Index of the last occurrence of a character, if any (mirrors the
`last(hostport, ':')` helper used by the Go standard library). -/
def lastIdxOf (c : Char) : GoString → Option Nat
  | [] => none
  | a :: rest =>
    match lastIdxOf c rest with
    | some k => some (k + 1)
    | none => if a = c then some 0 else none

/-- Index of the first occurrence of a character, if any (mirrors `byteIndex`). -/
def firstIdxOf (c : Char) : GoString → Option Nat
  | [] => none
  | a :: rest => if a = c then some 0 else (firstIdxOf c rest).map (· + 1)

/-- Error cases of the standard-library host:port splitter. -/
inductive AddrError where
  | missingPort
  | tooManyColons
  | missingBrackets
  | missingCloseBracket
  | unexpectedOpenBracket
  | unexpectedCloseBracket
deriving DecidableEq, Repr

/-- Model of `net.SplitHostPort` (Go standard library, as used by `config.go`):
the port starts after the last colon; a leading `[` introduces a bracketed host
that must be closed directly before that colon; stray brackets, a colon inside an
unbracketed host, or a zone marker `%` outside brackets are rejected. -/
def splitHostPort (hostport : GoString) : Except AddrError (GoString × GoString) :=
  match lastIdxOf ':' hostport with
  | none => .error .missingPort
  | some i =>
    if hostport.head? = some '[' then
      match firstIdxOf ']' hostport with
      | none => .error .missingCloseBracket
      | some e =>
        if e + 1 = hostport.length then .error .missingPort
        else if e + 1 = i then
          if '[' ∈ hostport.drop 1 then .error .unexpectedOpenBracket
          else if ']' ∈ hostport.drop (e + 1) then .error .unexpectedCloseBracket
          else .ok ((hostport.take e).drop 1, hostport.drop (i + 1))
        else if hostport.getD (e + 1) ' ' = ':' then .error .tooManyColons
        else .error .missingPort
    else
      if ':' ∈ hostport.take i then .error .tooManyColons
      else if '%' ∈ hostport.take i then .error .missingBrackets
      else if '[' ∈ hostport then .error .unexpectedOpenBracket
      else if ']' ∈ hostport then .error .unexpectedCloseBracket
      else .ok (hostport.take i, hostport.drop (i + 1))

/-- Model of `net.JoinHostPort`: hosts containing a colon or a percent sign are
bracketed. -/
def joinHostPort (host port : GoString) : GoString :=
  if ':' ∈ host ∨ '%' ∈ host then '[' :: host ++ ']' :: ':' :: port
  else host ++ ':' :: port

/-- Helper for `removeDuplicateAddresses`: walks the list keeping the first
occurrence of each entry, with `seen` playing the role of the Go `seen` map. -/
def dedupGo : List GoString → List GoString → List GoString
  | [], _ => []
  | a :: rest, seen =>
    if a ∈ seen then dedupGo rest seen else a :: dedupGo rest (a :: seen)

/-- `removeDuplicateAddresses` from `config.go`: a new slice with all duplicate
entries removed, keeping first occurrences in order. -/
def removeDuplicateAddresses (addrs : List GoString) : List GoString :=
  dedupGo addrs []

/-- `normalizeAddress` from `config.go`: appends the default port when the
splitter fails on the address, otherwise returns the address unchanged. -/
def normalizeAddress (addr defaultPort : GoString) : GoString :=
  match splitHostPort addr with
  | .error _ => joinHostPort addr defaultPort
  | .ok _ => addr

/-- `normalizeAddresses` from `config.go`: normalizes each entry with the given
default port, then removes duplicates. -/
def normalizeAddresses (addrs : List GoString) (defaultPort : GoString) : List GoString :=
  removeDuplicateAddresses (addrs.map (fun a => normalizeAddress a defaultPort))

/-- Index of the first occurrence of a string in a list (total; length if absent). -/
def firstOccIdx (x : GoString) (l : List GoString) : Nat :=
  l.findIdx (fun y => y = x)

/-! ### The configuration model

The `loadConfig` pipeline of `config.go` is embedded from the point where all
three sources (defaults, config file, command line) have to be combined.  The
impure collaborators are gathered into an environment `Env` of deterministic
functions: the flags/INI parsers (whose outputs are arbitrary configurations),
the database-backend registry, system DNS resolution of `localhost`, the
btcutil address codec, path expansion, and the btcnet parameter records. -/

/-- Network identifiers of the wire package (external); only the testnet3
identifier is inspected by `netName`. -/
inductive WireNet where
  | mainNet
  | testNet3
  | regTestNet
  | simNet
deriving DecidableEq, Repr

/-- Network parameter records supplied by the external btcnet package. -/
structure NetParams where
  Net : WireNet
  Name : GoString
  DefaultPort : GoString
  RPCPort : GoString
deriving DecidableEq, Repr

/-- A decoded address as produced by the external btcutil codec (opaque). -/
structure Address where
  raw : GoString
deriving DecidableEq, Repr

/-- Connection handle (opaque: produced by the external dialers). -/
structure Conn where
  tag : Nat
deriving DecidableEq, Repr

/-- Resolved IP address (opaque: produced by the external resolvers). -/
structure IPAddr where
  tag : Nat
deriving DecidableEq, Repr

/-- The dial strategies `config.go` can bind into the configuration: the plain
`net.Dial`, a socks proxy dial with the given endpoint and credentials, or the
always-failing dial installed when onion routing is disabled. -/
inductive DialFn where
  | net
  | socks (addr user pass : GoString)
  | disabled
deriving DecidableEq, Repr

/-- The lookup strategies: system DNS (`net.LookupIP`), tor-based resolution
through the given proxy (`torLookupIP`), or the always-failing lookup installed
when onion routing is disabled. -/
inductive LookupFn where
  | system
  | tor (proxy : GoString)
  | disabled
deriving DecidableEq, Repr

/-- The error message of the disabled onion strategies (`config.go`). -/
def torDisabledMsg : GoString := "tor has been disabled".toList

/-- Runtime behavior of the external dialers/resolvers, used to give the bound
strategies their meaning. -/
structure NetEnv where
  netDial : GoString → GoString → Except GoString Conn
  socksDial : GoString → GoString → GoString → GoString → GoString → Except GoString Conn
  netLookupIP : GoString → Except GoString (List IPAddr)
  torLookupIP : GoString → GoString → Except GoString (List IPAddr)

/-- Semantics of a bound dial strategy. -/
def DialFn.run (nenv : NetEnv) : DialFn → GoString → GoString → Except GoString Conn
  | .net, a, b => nenv.netDial a b
  | .socks addr user pass, a, b => nenv.socksDial addr user pass a b
  | .disabled, _, _ => .error torDisabledMsg

/-- Semantics of a bound lookup strategy. -/
def LookupFn.run (nenv : NetEnv) : LookupFn → GoString → Except GoString (List IPAddr)
  | .system, h => nenv.netLookupIP h
  | .tor proxy, h => nenv.torLookupIP h proxy
  | .disabled, _ => .error torDisabledMsg

/-- The RPC server section of the configuration (`btcmgmt.RPCServerConfig`). -/
structure RPCServerConfig where
  User : GoString
  Pass : GoString
  Listeners : List GoString
  MaxClients : Nat
  MaxWebsockets : Nat
  Key : GoString
  Cert : GoString
deriving DecidableEq, Repr

/-- The configuration record (`btcserver.Config` with its embedded
`btcnode.NodeConfig`), restricted to the fields the embedded logic reads or
writes.  Fields of floating-point type (`FreeTxRelayLimit`) and fields only
carried through untouched are omitted.  The `Dial`/`Lookup` fields are `none`
until the pipeline binds them (they are nil function pointers in the source
until then). -/
structure Config where
  ConfigFile : GoString
  DebugLevel : GoString
  MaxPeers : Nat
  BanDuration : Int
  DataDir : GoString
  LogDir : GoString
  DbType : GoString
  Profile : GoString
  BlockMinSize : Nat
  BlockMaxSize : Nat
  BlockPrioritySize : Nat
  Generate : Bool
  ShowVersion : Bool
  TestNet3 : Bool
  RegressionTest : Bool
  SimNet : Bool
  AddPeers : List GoString
  ConnectPeers : List GoString
  Listeners : List GoString
  DisableListen : Bool
  DisableDNSSeed : Bool
  DisableRPC : Bool
  Proxy : GoString
  ProxyUser : GoString
  ProxyPass : GoString
  OnionProxy : GoString
  OnionProxyUser : GoString
  OnionProxyPass : GoString
  NoOnion : Bool
  GetWorkKeys : List GoString
  MiningAddrs : List GoString
  MiningAddrsS : List Address
  ActiveNetParams : NetParams
  RPCConfig : RPCServerConfig
  Dial : Option DialFn
  Oniondial : Option DialFn
  Lookup : Option LookupFn
  Onionlookup : Option LookupFn
deriving DecidableEq, Repr

/-- The distinct fatal outcomes of `loadConfig`. -/
inductive LoadError where
  | configFileParse (msg : GoString)
  | cliParse (msg : GoString)
  | multipleNetworksSelected
  | invalidDbType
  | invalidProfilePort
  | banDurationTooShort
  | peerListsConflict
  | rpcLookupFailed (msg : GoString)
  | blockMaxSizeOutOfRange
  | getWorkKeyDecodeFailed (addr : GoString)
  | getWorkKeyWrongNetwork (addr : GoString)
  | miningAddrDecodeFailed (addr : GoString)
  | miningAddrWrongNetwork (addr : GoString)
  | noMiningAddrs
deriving DecidableEq, Repr

/-- Result of attempting to read and parse the configuration file:
successfully parsed (yielding the merge its options perform over the current
configuration), a path error (missing file, tolerated), or any other failure
(fatal). -/
inductive FileReadResult where
  | parsed (merge : Config → Config)
  | pathError (msg : GoString)
  | failed (msg : GoString)

/-- Deterministic model of the impure collaborators of `loadConfig`. -/
structure Env where
  homeDir : GoString
  knownDbTypes : List GoString
  cleanAndExpand : GoString → GoString
  lookupHost : GoString → Except GoString (List GoString)
  decodeAddress : GoString → NetParams → Option Address
  isForNet : Address → NetParams → Bool
  nmcMainNetParams : NetParams
  testNet3Params : NetParams
  regressionNetParams : NetParams
  simNetParams : NetParams

/-- POSIX `filepath.Join` on already-clean segments. -/
def filepathJoin (a b : GoString) : GoString := a ++ '/' :: b

/-- `netName` from `config.go`. -/
def netName (p : NetParams) : GoString :=
  if p.Net = .testNet3 then "testnet".toList else p.Name

/-- `minUint32` from `config.go` (its `uint32` values are modelled as `Nat`;
the pipeline only compares and copies them). -/
def minUint32 (a b : Nat) : Nat := if a < b then a else b

/-- `validDbType` from `config.go`. -/
def validDbType (env : Env) (dbType : GoString) : Bool :=
  env.knownDbTypes.contains dbType

/-- Digit-string parse helper for `goAtoi`. -/
def digitsToNat : GoString → Option Nat
  | [] => none
  | l => l.foldl (fun acc c =>
      acc.bind (fun n => if c.isDigit then some (n * 10 + (c.toNat - 48)) else none))
      (some 0)

/-- Model of `strconv.Atoi`: an optional sign followed by at least one digit.
Overflow of the 64-bit integer type is not modelled; every string it affects is
rejected anyway by the `[1024, 65535]` profile-port range check. -/
def goAtoi (s : GoString) : Option Int :=
  match s with
  | '+' :: rest => (digitsToNat rest).map Int.ofNat
  | '-' :: rest => (digitsToNat rest).map (fun n => -(n : Int))
  | _ => (digitsToNat s).map Int.ofNat

/-- One second as a Go `time.Duration` (nanoseconds). -/
def nanosPerSecond : Int := 1000000000

/-- `btcwire.MaxBlockPayload` (external constant). -/
def maxBlockPayload : Nat := 1000000

/-- `blockMaxSizeMin` from `config.go`. -/
def blockMaxSizeMin : Nat := 1000

/-- `blockMaxSizeMax` from `config.go`. -/
def blockMaxSizeMax : Nat := maxBlockPayload - 1000

/-- Number of network selector flags set (testnet, regression, simulation). -/
def netFlagCount (cfg : Config) : Nat :=
  (if cfg.TestNet3 then 1 else 0) + (if cfg.RegressionTest then 1 else 0) +
    (if cfg.SimNet then 1 else 0)

/-- The parameter record the sequential assignments of `loadConfig` leave
active (the simulation assignment is last, then regression, then testnet). -/
def selectedNetParams (env : Env) (cfg : Config) : NetParams :=
  if cfg.SimNet then env.simNetParams
  else if cfg.RegressionTest then env.regressionNetParams
  else if cfg.TestNet3 then env.testNet3Params
  else env.nmcMainNetParams

/-- Network selection (`config.go` lines 286-314): counts the selector flags,
assigns the active parameters (disabling DNS seeding for the simulation
network), and fails when more than one selector is set.  The source performs
the sequential assignments before the count check; as the error discards the
configuration, the check is lifted outermost here and the last-write-wins
assignment sequence is expressed through `selectedNetParams`. -/
def selectNetwork (env : Env) (cfg : Config) : Except LoadError Config :=
  if 1 < netFlagCount cfg then .error .multipleNetworksSelected
  else
    .ok { cfg with
      ActiveNetParams := selectedNetParams env cfg,
      DisableDNSSeed := if cfg.SimNet then true else cfg.DisableDNSSeed }

/-- Directory namespacing (`config.go` lines 316-328): the network name is
appended to the cleaned data and log directories. -/
def namespaceDirs (env : Env) (cfg : Config) : Config :=
  { cfg with
    DataDir := filepathJoin (env.cleanAndExpand cfg.DataDir) (netName cfg.ActiveNetParams),
    LogDir := filepathJoin (env.cleanAndExpand cfg.LogDir) (netName cfg.ActiveNetParams) }

/-- Database type validation (`config.go` lines 348-356). -/
def checkDbType (env : Env) (cfg : Config) : Except LoadError Config :=
  if validDbType env cfg.DbType then .ok cfg else .error .invalidDbType

/-- Profile port validation (`config.go` lines 358-368). -/
def checkProfilePort (cfg : Config) : Except LoadError Config :=
  if cfg.Profile = [] then .ok cfg
  else
    match goAtoi cfg.Profile with
    | none => .error .invalidProfilePort
    | some n => if n < 1024 ∨ 65535 < n then .error .invalidProfilePort else .ok cfg

/-- Ban duration validation (`config.go` lines 370-377). -/
def checkBanDuration (cfg : Config) : Except LoadError Config :=
  if cfg.BanDuration < nanosPerSecond then .error .banDurationTooShort else .ok cfg

/-- Peer list exclusivity (`config.go` lines 379-387). -/
def checkPeerLists (cfg : Config) : Except LoadError Config :=
  if cfg.AddPeers ≠ [] ∧ cfg.ConnectPeers ≠ [] then .error .peerListsConflict else .ok cfg

/-- `config.go` lines 389-393: proxy or connect without listeners disables
listening. -/
def disableListenStep (cfg : Config) : Config :=
  if (cfg.Proxy ≠ [] ∨ cfg.ConnectPeers ≠ []) ∧ cfg.Listeners = [] then
    { cfg with DisableListen := true }
  else cfg

/-- `config.go` lines 395-398: a connect list disables DNS seeding. -/
def connectSeedStep (cfg : Config) : Config :=
  if cfg.ConnectPeers ≠ [] then { cfg with DisableDNSSeed := true } else cfg

/-- `config.go` lines 400-407: a default all-interfaces listener is synthesized
when none was given. -/
def defaultListenerStep (cfg : Config) : Config :=
  if cfg.Listeners = [] then
    { cfg with Listeners := [joinHostPort [] cfg.ActiveNetParams.DefaultPort] }
  else cfg

/-- Listener adjustments (`config.go` lines 389-407). -/
def adjustListenOptions (cfg : Config) : Config :=
  defaultListenerStep (connectSeedStep (disableListenStep cfg))

/-- `config.go` lines 409-412: RPC is disabled without credentials. -/
def disableRPCStep (cfg : Config) : Config :=
  if cfg.RPCConfig.User = [] ∨ cfg.RPCConfig.Pass = [] then
    { cfg with DisableRPC := true }
  else cfg

/-- `config.go` lines 414-426: missing RPC listeners default to every resolved
localhost address on the network RPC port (resolution failure is fatal). -/
def defaultRPCListenersStep (env : Env) (cfg : Config) : Except LoadError Config :=
  if cfg.DisableRPC = false ∧ cfg.RPCConfig.Listeners = [] then
    match env.lookupHost "localhost".toList with
    | .error e => .error (.rpcLookupFailed e)
    | .ok addrs =>
      .ok { cfg with RPCConfig := { cfg.RPCConfig with
        Listeners := addrs.map (fun a => joinHostPort a cfg.ActiveNetParams.RPCPort) } }
  else .ok cfg

/-- RPC defaults (`config.go` lines 409-426). -/
def applyRPCDefaults (env : Env) (cfg : Config) : Except LoadError Config :=
  defaultRPCListenersStep env (disableRPCStep cfg)

/-- Block size validation and clamping (`config.go` lines 428-443). -/
def limitBlockSizes (cfg : Config) : Except LoadError Config :=
  if cfg.BlockMaxSize < blockMaxSizeMin ∨ blockMaxSizeMax < cfg.BlockMaxSize then
    .error .blockMaxSizeOutOfRange
  else
    .ok { cfg with
      BlockPrioritySize := minUint32 cfg.BlockPrioritySize cfg.BlockMaxSize,
      BlockMinSize := minUint32 cfg.BlockMinSize cfg.BlockMaxSize }

/-- Decode a list of address strings against the active network, failing with
the supplied error constructors on a decode failure or a network mismatch
(`config.go` lines 446-486, one loop per list). -/
def decodeCheckedAddrs (env : Env) (params : NetParams)
    (decodeErr wrongNetErr : GoString → LoadError) :
    List GoString → Except LoadError (List Address)
  | [] => .ok []
  | s :: rest =>
    match env.decodeAddress s params with
    | none => .error (decodeErr s)
    | some a =>
      if env.isForNet a params then
        (decodeCheckedAddrs env params decodeErr wrongNetErr rest).map (fun l => a :: l)
      else .error (wrongNetErr s)

/-- Mining address collection (`config.go` lines 445-497): the parsed getwork
keys and mining addresses are gathered into `MiningAddrsS`; with the generate
flag set, an empty combined list is fatal. -/
def parseMiningAddrs (env : Env) (cfg : Config) : Except LoadError Config :=
  (decodeCheckedAddrs env cfg.ActiveNetParams .getWorkKeyDecodeFailed
      .getWorkKeyWrongNetwork cfg.GetWorkKeys).bind fun gw =>
  (decodeCheckedAddrs env cfg.ActiveNetParams .miningAddrDecodeFailed
      .miningAddrWrongNetwork cfg.MiningAddrs).bind fun ma =>
  if cfg.Generate ∧ gw ++ ma = [] then .error .noMiningAddrs
  else .ok { cfg with MiningAddrsS := gw ++ ma }

/-- Address normalization over the four lists (`config.go` lines 499-514). -/
def normalizeConfigAddresses (cfg : Config) : Config :=
  { cfg with
    Listeners := normalizeAddresses cfg.Listeners cfg.ActiveNetParams.DefaultPort,
    RPCConfig := { cfg.RPCConfig with
      Listeners := normalizeAddresses cfg.RPCConfig.Listeners cfg.ActiveNetParams.RPCPort },
    AddPeers := normalizeAddresses cfg.AddPeers cfg.ActiveNetParams.DefaultPort,
    ConnectPeers := normalizeAddresses cfg.ConnectPeers cfg.ActiveNetParams.DefaultPort }

/-- `config.go` lines 516-536: direct dial and system DNS by default; a
configured proxy replaces the dial and, unless onion routing is disabled, the
lookup.  The source assigns the defaults first and then conditionally
overwrites them; the flattened conditional assignment here is the same
last-write-wins result. -/
def bindClearDialLookup (cfg : Config) : Config :=
  { cfg with
    Dial := some (if cfg.Proxy ≠ [] then .socks cfg.Proxy cfg.ProxyUser cfg.ProxyPass
      else .net),
    Lookup := some (if cfg.Proxy ≠ [] ∧ cfg.NoOnion = false then .tor cfg.Proxy
      else .system) }

/-- `config.go` lines 538-561: the onion pair defaults to the clear pair unless
a separate onion proxy is configured. -/
def bindOnionDialLookup (cfg : Config) : Config :=
  if cfg.OnionProxy ≠ [] then
    { cfg with
      Oniondial := some (.socks cfg.OnionProxy cfg.OnionProxyUser cfg.OnionProxyPass),
      Onionlookup := some (.tor cfg.OnionProxy) }
  else { cfg with Oniondial := cfg.Dial, Onionlookup := cfg.Lookup }

/-- `config.go` lines 563-572: disabling onion routing finally replaces both
onion strategies with the always-failing ones. -/
def disableOnionStep (cfg : Config) : Config :=
  if cfg.NoOnion then
    { cfg with Oniondial := some .disabled, Onionlookup := some .disabled }
  else cfg

/-- Dial and lookup strategy binding (`config.go` lines 516-572). -/
def setupDialLookup (cfg : Config) : Config :=
  disableOnionStep (bindOnionDialLookup (bindClearDialLookup cfg))

/-- The validation stages up to and including block-size limiting. -/
def preMiningPipeline (env : Env) (cfg : Config) : Except LoadError Config :=
  (selectNetwork env cfg).bind fun c1 =>
  (checkDbType env (namespaceDirs env c1)).bind fun c3 =>
  (checkProfilePort c3).bind fun c4 =>
  (checkBanDuration c4).bind fun c5 =>
  (checkPeerLists c5).bind fun c6 =>
  (applyRPCDefaults env (adjustListenOptions c6)).bind fun c8 =>
  limitBlockSizes c8

/-- `loadConfig` from the point where the command line has been re-parsed
(`config.go` lines 286-581): validation, derivation and strategy binding over
the merged configuration, with the remaining positional arguments carried
through. -/
def resolveFromParsed (cfg : Config) (remainingArgs : List GoString) (env : Env) :
    Except LoadError (Config × List GoString) :=
  (preMiningPipeline env cfg).bind fun c9 =>
  (parseMiningAddrs env c9).bind fun c10 =>
  .ok (setupDialLookup (normalizeConfigAddresses c10), remainingArgs)

/-- Observable outcome of a full `loadConfig` run: the result, whether the
configuration file was opened at all, and whether the deferred missing-file
warning was emitted. -/
structure LoadOutcome where
  result : Except LoadError (Config × List GoString)
  openedConfigFile : Bool
  warnedConfigFile : Bool

/-- The default configuration file path (`btcdHomeDir/btcd.conf`). -/
def defaultConfigFile (env : Env) : GoString :=
  filepathJoin env.homeDir "btcd.conf".toList

/-- The compiled-in default configuration (`config.go` lines 184-206). -/
def defaultConfig (env : Env) : Config where
  ConfigFile := defaultConfigFile env
  DebugLevel := "info".toList
  MaxPeers := 125
  BanDuration := 24 * 3600 * nanosPerSecond
  DataDir := filepathJoin env.homeDir "data".toList
  LogDir := filepathJoin env.homeDir "logs".toList
  DbType := "leveldb".toList
  Profile := []
  BlockMinSize := 0
  BlockMaxSize := 750000
  BlockPrioritySize := 50000
  Generate := false
  ShowVersion := false
  TestNet3 := false
  RegressionTest := false
  SimNet := false
  AddPeers := []
  ConnectPeers := []
  Listeners := []
  DisableListen := false
  DisableDNSSeed := false
  DisableRPC := false
  Proxy := []
  ProxyUser := []
  ProxyPass := []
  OnionProxy := []
  OnionProxyUser := []
  OnionProxyPass := []
  NoOnion := false
  GetWorkKeys := []
  MiningAddrs := []
  MiningAddrsS := []
  ActiveNetParams := env.nmcMainNetParams
  RPCConfig := {
    User := []
    Pass := []
    Listeners := []
    MaxClients := 10
    MaxWebsockets := 25
    Key := filepathJoin env.homeDir "rpc.key".toList
    Cert := filepathJoin env.homeDir "rpc.cert".toList }
  Dial := none
  Oniondial := none
  Lookup := none
  Onionlookup := none

/-- `config.go` lines 272-275: peers inherited from the config file are
suppressed under the regression profile. -/
def suppressRegtestPeers (preCfg cfg : Config) : Config :=
  if preCfg.RegressionTest ∧ cfg.AddPeers ≠ [] then { cfg with AddPeers := [] } else cfg

/-- `loadConfig` after the optional file stage: suppress file-inherited peers
under the regression profile, re-parse the command line strictly, then run the
validation pipeline; the deferred missing-file warning is only emitted on the
success path (`config.go` lines 272-581). -/
def loadConfigRest (preCfg : Config) (cliParse : Config → Except GoString (Config × List GoString))
    (env : Env) (cfg : Config) (opened deferredWarning : Bool) : LoadOutcome :=
  match cliParse (suppressRegtestPeers preCfg cfg) with
  | .error m =>
    { result := .error (.cliParse m), openedConfigFile := opened, warnedConfigFile := false }
  | .ok (cfg2, rem) =>
    match resolveFromParsed cfg2 rem env with
    | .error e =>
      { result := .error e, openedConfigFile := opened, warnedConfigFile := false }
    | .ok r =>
      { result := .ok r, openedConfigFile := opened, warnedConfigFile := deferredWarning }

/-- `loadConfig` from the file stage (`config.go` lines 254-581): the file at
the pre-parsed path is read and merged unless the lenient pre-parse selected
the regression or simulation network while leaving the config-file path at its
built-in default; a path error is deferred as a warning, any other read/parse
failure is fatal. -/
def loadConfig (preCfg : Config) (readConfigFile : GoString → FileReadResult)
    (cliParse : Config → Except GoString (Config × List GoString)) (env : Env) : LoadOutcome :=
  if (preCfg.RegressionTest = false ∧ preCfg.SimNet = false) ∨
      preCfg.ConfigFile ≠ defaultConfigFile env then
    match readConfigFile preCfg.ConfigFile with
    | .failed m =>
      { result := .error (.configFileParse m), openedConfigFile := true,
        warnedConfigFile := false }
    | .pathError _ => loadConfigRest preCfg cliParse env (defaultConfig env) true true
    | .parsed merge =>
      loadConfigRest preCfg cliParse env (merge (defaultConfig env)) true false
  else loadConfigRest preCfg cliParse env (defaultConfig env) false false

/-! ### The startup orchestrator model

The `RunFunc` of the service orchestrator (main file, lines 95-131) is embedded
as a function of the engine behavior and the service manager: the race between
the engine task's completion channel and its ready channel is resolved by the
`EngineBehavior` input, and the calls made on the service manager are recorded
as an event trace. -/

/-- Calls the orchestrator can make on its collaborators. -/
inductive MgrEvent where
  | dropPrivileges
  | setStarted
  | engineStop
deriving DecidableEq, Repr

/-- The hosting service manager: the result of the privilege drop, and whether
its stop channel fires before the running engine completes on its own. -/
structure SMgr where
  dropPrivilegesResult : Option GoString
  stopRequested : Bool

/-- How the engine task behaves: either it completes (with an optional error)
before delivering the ready handle, or it delivers the handle and later
completes, with possibly different outcomes depending on whether a stop was
requested. -/
inductive EngineBehavior where
  | prematureExit (res : Option GoString)
  | ready (stopResult spontaneousResult : Option GoString)

/-- The orchestrator body: outcome plus the trace of manager/engine calls. -/
def runFunc (eng : EngineBehavior) (smgr : SMgr) : Option GoString × List MgrEvent :=
  match eng with
  | .prematureExit res => (res, [])
  | .ready stopResult spontaneousResult =>
    match smgr.dropPrivilegesResult with
    | some e => (some e, [.dropPrivileges])
    | none =>
      if smgr.stopRequested then
        (stopResult, [.dropPrivileges, .setStarted, .engineStop])
      else
        (spontaneousResult, [.dropPrivileges, .setStarted])

/-- Boolean success test for `Except`. -/
def exceptIsOk : Except ε α → Bool
  | .ok _ => true
  | .error _ => false

/-- The fields of a configuration that the validation stages carry through
unchanged (used to relate a stage output to its input). -/
def miscOf (cfg : Config) :=
  (cfg.Generate, cfg.GetWorkKeys, cfg.MiningAddrs, cfg.NoOnion, cfg.Proxy, cfg.ProxyUser,
    cfg.ProxyPass, cfg.OnionProxy, cfg.OnionProxyUser, cfg.OnionProxyPass)

/-- The block-size fields of a configuration. -/
def blockOf (cfg : Config) :=
  (cfg.BlockMaxSize, cfg.BlockPrioritySize, cfg.BlockMinSize)

/-! ### Concrete fixtures used to exercise the pipeline -/

/-- Main-network parameter fixture. -/
def witMainParams : NetParams :=
  { Net := .mainNet, Name := "mainnet".toList, DefaultPort := "8334".toList,
    RPCPort := "8336".toList }

/-- Testnet parameter fixture. -/
def witTestParams : NetParams :=
  { Net := .testNet3, Name := "testnet3".toList, DefaultPort := "18334".toList,
    RPCPort := "18336".toList }

/-- Regression-network parameter fixture. -/
def witRegParams : NetParams :=
  { Net := .regTestNet, Name := "regtest".toList, DefaultPort := "18444".toList,
    RPCPort := "18334".toList }

/-- Simulation-network parameter fixture. -/
def witSimParams : NetParams :=
  { Net := .simNet, Name := "simnet".toList, DefaultPort := "18555".toList,
    RPCPort := "18556".toList }

/-- Environment fixture: both database backends registered, identity path
expansion, localhost resolving to one address, and an address codec accepting
every string for every network. -/
def witEnv : Env :=
  { homeDir := "/h".toList
    knownDbTypes := ["leveldb".toList, "memdb".toList]
    cleanAndExpand := fun x => x
    lookupHost := fun _ => .ok ["127.0.0.1".toList]
    decodeAddress := fun s _ => some { raw := s }
    isForNet := fun _ _ => true
    nmcMainNetParams := witMainParams
    testNet3Params := witTestParams
    regressionNetParams := witRegParams
    simNetParams := witSimParams }

/-- A configuration that survives the whole pipeline: the compiled-in defaults
against the environment fixture. -/
def witCfgOk : Config := defaultConfig witEnv

/-- Runtime network fixture for exercising strategy semantics. -/
def witNetEnv : NetEnv :=
  { netDial := fun _ _ => .ok { tag := 0 }
    socksDial := fun _ _ _ _ _ => .ok { tag := 1 }
    netLookupIP := fun _ => .ok []
    torLookupIP := fun _ _ => .ok [] }

/-- Block-size fields of a successful resolution, if any. -/
def resultBlockSizes (r : Except LoadError (Config × List GoString)) :
    Option (Nat × Nat × Nat) :=
  match r with
  | .ok (c, _) => some (c.BlockMaxSize, c.BlockPrioritySize, c.BlockMinSize)
  | .error _ => none

/-- Onion strategies of a successful resolution, if any. -/
def resultOnionStrategies (r : Except LoadError (Config × List GoString)) :
    Option (Option DialFn × Option LookupFn) :=
  match r with
  | .ok (c, _) => some (c.Oniondial, c.Onionlookup)
  | .error _ => none

/-- Clear strategies of a successful resolution, if any. -/
def resultClearStrategies (r : Except LoadError (Config × List GoString)) :
    Option (Option DialFn × Option LookupFn) :=
  match r with
  | .ok (c, _) => some (c.Dial, c.Lookup)
  | .error _ => none

/-- Proxy-related fields of a successful resolution, if any. -/
def resultProxyInfo (r : Except LoadError (Config × List GoString)) :
    Option (GoString × GoString × GoString × Bool) :=
  match r with
  | .ok (c, _) => some (c.Proxy, c.ProxyUser, c.ProxyPass, c.NoOnion)
  | .error _ => none

/-- Address list fixture with duplicates and a mixture of present and missing
ports. -/
def witAddrList : List GoString := ["a".toList, "a:1".toList, "a".toList]

/-- A pre-parse result selecting the regression network with the config-file
path left at its built-in default. -/
def witPreCfgRegtest : Config := { witCfgOk with RegressionTest := true }

/-- A file reader whose file is absent. -/
def witReadMissing : GoString → FileReadResult := fun _ => .pathError "no such file".toList

/-- A file reader whose file fails to parse. -/
def witReadBroken : GoString → FileReadResult := fun _ => .failed "bad ini".toList

/-- A command-line parse that changes nothing and leaves no positional
arguments. -/
def witCliNoop : Config → Except GoString (Config × List GoString) := fun c => .ok (c, [])

/-- A configuration with a socks proxy and credentials. -/
def witCfgProxy : Config :=
  { witCfgOk with
      Proxy := "127.0.0.1:9050".toList
      ProxyUser := "u".toList
      ProxyPass := "pw".toList }

/-- The proxy configuration with onion routing disabled. -/
def witCfgProxyNoOnion : Config := { witCfgProxy with NoOnion := true }

/-! ### Lemmas about the index helpers -/

theorem lastIdxOf_eq_none {c : Char} {l : GoString} (h : c ∉ l) : lastIdxOf c l = none := by
  induction l with
  | nil => rfl
  | cons a rest ih =>
    simp only [List.mem_cons, not_or] at h
    have hne : ¬a = c := fun hh => h.1 hh.symm
    simp [lastIdxOf, ih h.2, hne]

theorem lastIdxOf_append_cons {c : Char} (l : GoString) {r : GoString} (h : c ∉ r) :
    lastIdxOf c (l ++ c :: r) = some l.length := by
  induction l with
  | nil => simp [lastIdxOf, lastIdxOf_eq_none h]
  | cons a rest ih => simp [lastIdxOf, ih]

theorem firstIdxOf_eq_none {c : Char} {l : GoString} (h : c ∉ l) : firstIdxOf c l = none := by
  induction l with
  | nil => rfl
  | cons a rest ih =>
    simp only [List.mem_cons, not_or] at h
    have hne : ¬a = c := fun hh => h.1 hh.symm
    simp [firstIdxOf, hne, ih h.2]

theorem firstIdxOf_append_cons {c : Char} {l : GoString} (r : GoString) (h : c ∉ l) :
    firstIdxOf c (l ++ c :: r) = some l.length := by
  induction l with
  | nil => simp [firstIdxOf]
  | cons a rest ih =>
    simp only [List.mem_cons, not_or] at h
    have hne : ¬a = c := fun hh => h.1 hh.symm
    simp [firstIdxOf, hne, ih h.2]

/-! ### The splitter accepts every port-appended form built from bracket-free parts -/

/-- If the address is free of square brackets and the default port is free of
colons and square brackets, joining the default port onto the address yields a
string the splitter accepts, recovering the address and the port. -/
theorem splitHostPort_joinHostPort {a p : GoString}
    (ha1 : '[' ∉ a) (ha2 : ']' ∉ a) (hp1 : ':' ∉ p) (hp2 : '[' ∉ p) (hp3 : ']' ∉ p) :
    splitHostPort (joinHostPort a p) = .ok (a, p) := by
  by_cases hb : ':' ∈ a ∨ '%' ∈ a
  · -- bracketed form: [a]:p
    have hshape : joinHostPort a p = ('[' :: a ++ [']']) ++ ':' :: p := by
      simp [joinHostPort, hb]
    have hlast : lastIdxOf ':' (joinHostPort a p) = some (a.length + 2) := by
      rw [hshape, lastIdxOf_append_cons _ hp1]
      simp
    have hfirst : firstIdxOf ']' (joinHostPort a p) = some (a.length + 1) := by
      have hsh : joinHostPort a p = ('[' :: a) ++ ']' :: (':' :: p) := by
        simp [joinHostPort, hb]
      rw [hsh, firstIdxOf_append_cons _ (by simp [ha2])]
      simp
    have hhead : (joinHostPort a p).head? = some '[' := by
      simp [joinHostPort, hb]
    have hlen : (joinHostPort a p).length = a.length + 3 + p.length := by
      rw [hshape]; simp; omega
    have hdrop1 : (joinHostPort a p).drop 1 = a ++ ']' :: ':' :: p := by
      simp [joinHostPort, hb]
    have hdropE : (joinHostPort a p).drop (a.length + 1 + 1) = ':' :: p := by
      rw [hshape, show a.length + 1 + 1 = ('[' :: a ++ [']']).length from by simp]
      exact List.drop_left _ _
    have htake : ((joinHostPort a p).take (a.length + 1)).drop 1 = a := by
      have hsh : joinHostPort a p = ('[' :: a) ++ ']' :: (':' :: p) := by
        simp [joinHostPort, hb]
      rw [hsh, show a.length + 1 = ('[' :: a).length from by simp, List.take_left]
      simp
    have hdropI : (joinHostPort a p).drop (a.length + 2 + 1) = p := by
      rw [hshape, show a.length + 2 + 1 = (('[' :: a ++ [']']) ++ [':']).length from by simp,
        show ('[' :: a ++ [']']) ++ ':' :: p = (('[' :: a ++ [']']) ++ [':']) ++ p from by simp,
        List.drop_left]
    have c1 : ¬(a.length + 1 + 1 = (joinHostPort a p).length) := by rw [hlen]; omega
    have c2 : a.length + 1 + 1 = a.length + 2 := by omega
    have hm1 : ¬('[' ∈ (joinHostPort a p).drop 1) := by rw [hdrop1]; simp [ha1, hp2]
    have hm2 : ¬(']' ∈ (joinHostPort a p).drop (a.length + 1 + 1)) := by
      rw [hdropE]; simp [hp3]
    rw [splitHostPort, hlast]
    dsimp only
    rw [if_pos hhead, hfirst]
    dsimp only
    rw [if_neg c1, if_pos c2, if_neg hm1, if_neg hm2, htake, hdropI]
  · -- plain form: a:p, with a colon-free and percent-free
    push_neg at hb
    obtain ⟨hac, hap⟩ := hb
    have hshape : joinHostPort a p = a ++ ':' :: p := by
      simp [joinHostPort, hac, hap]
    have hlast : lastIdxOf ':' (joinHostPort a p) = some a.length := by
      rw [hshape]; exact lastIdxOf_append_cons _ hp1
    have hhead : ¬(joinHostPort a p).head? = some '[' := by
      rw [hshape]
      cases a with
      | nil => simp
      | cons x rest =>
        simp only [List.cons_append, List.head?_cons, Option.some.injEq]
        intro hx
        exact ha1 (by subst hx; exact List.mem_cons_self _ _)
    have htake : (joinHostPort a p).take a.length = a := by
      rw [hshape]; exact List.take_left _ _
    have hdropI : (joinHostPort a p).drop (a.length + 1) = p := by
      rw [hshape, show a.length + 1 = (a ++ [':']).length from by simp,
        show a ++ ':' :: p = (a ++ [':']) ++ p from by simp, List.drop_left]
    have hm3 : ¬('[' ∈ joinHostPort a p) := by rw [hshape]; simp [ha1, hp2]
    have hm4 : ¬(']' ∈ joinHostPort a p) := by rw [hshape]; simp [ha2, hp3]
    rw [splitHostPort, hlast]
    dsimp only
    rw [if_neg hhead]
    rw [htake, if_neg hac, if_neg hap, if_neg hm3, if_neg hm4, hdropI]

/-- Under the bracket-freeness side conditions, the splitter accepts the result
of `normalizeAddress`. -/
theorem splitHostPort_normalizeAddress_isOk {a p : GoString}
    (ha1 : '[' ∉ a) (ha2 : ']' ∉ a) (hp1 : ':' ∉ p) (hp2 : '[' ∉ p) (hp3 : ']' ∉ p) :
    ∃ hostPort, splitHostPort (normalizeAddress a p) = .ok hostPort := by
  rw [normalizeAddress]
  cases h : splitHostPort a with
  | error e => exact ⟨(a, p), splitHostPort_joinHostPort ha1 ha2 hp1 hp2 hp3⟩
  | ok v => exact ⟨v, h⟩

/-- Under the side conditions, `normalizeAddress` is idempotent. -/
theorem normalizeAddress_idem {a p : GoString}
    (ha1 : '[' ∉ a) (ha2 : ']' ∉ a) (hp1 : ':' ∉ p) (hp2 : '[' ∉ p) (hp3 : ']' ∉ p) :
    normalizeAddress (normalizeAddress a p) p = normalizeAddress a p := by
  obtain ⟨hp4, hok⟩ := splitHostPort_normalizeAddress_isOk ha1 ha2 hp1 hp2 hp3
  conv_lhs => rw [normalizeAddress]
  rw [hok]

/-! ### Lemmas about duplicate removal -/

theorem dedupGo_mem {x : GoString} :
    ∀ {l seen : List GoString}, x ∈ dedupGo l seen ↔ x ∈ l ∧ x ∉ seen := by
  intro l
  induction l with
  | nil => intro seen; simp [dedupGo]
  | cons a rest ih =>
    intro seen
    by_cases ha : a ∈ seen
    · rw [dedupGo, if_pos ha, ih]
      constructor
      · rintro ⟨hx, hs⟩
        exact ⟨List.mem_cons_of_mem _ hx, hs⟩
      · rintro ⟨hx, hs⟩
        rcases List.mem_cons.mp hx with rfl | hx
        · exact absurd ha hs
        · exact ⟨hx, hs⟩
    · rw [dedupGo, if_neg ha]
      constructor
      · intro hx
        rcases List.mem_cons.mp hx with rfl | hx
        · exact ⟨List.mem_cons_self _ _, ha⟩
        · obtain ⟨h1, h2⟩ := ih.mp hx
          simp only [List.mem_cons, not_or] at h2
          exact ⟨List.mem_cons_of_mem _ h1, h2.2⟩
      · rintro ⟨hx, hs⟩
        rcases List.mem_cons.mp hx with rfl | hx
        · exact List.mem_cons_self _ _
        · by_cases hxa : x = a
          · subst hxa; exact List.mem_cons_self _ _
          · exact List.mem_cons_of_mem _ (ih.mpr ⟨hx, by simp [hxa, hs]⟩)

theorem dedupGo_nodup : ∀ (l seen : List GoString), (dedupGo l seen).Nodup := by
  intro l
  induction l with
  | nil => intro seen; simp [dedupGo]
  | cons a rest ih =>
    intro seen
    by_cases ha : a ∈ seen
    · rw [dedupGo, if_pos ha]; exact ih seen
    · rw [dedupGo, if_neg ha]
      refine List.nodup_cons.mpr ⟨?_, ih (a :: seen)⟩
      intro hmem
      exact (dedupGo_mem.mp hmem).2 (List.mem_cons_self _ _)

theorem dedupGo_sublist : ∀ (l seen : List GoString), List.Sublist (dedupGo l seen) l := by
  intro l
  induction l with
  | nil => intro seen; simp [dedupGo]
  | cons a rest ih =>
    intro seen
    by_cases ha : a ∈ seen
    · rw [dedupGo, if_pos ha]; exact (ih seen).trans (List.sublist_cons_self _ _)
    · rw [dedupGo, if_neg ha]; exact (ih (a :: seen)).cons₂ a

theorem dedupGo_eq_self : ∀ {l seen : List GoString}, l.Nodup → (∀ x ∈ l, x ∉ seen) →
    dedupGo l seen = l := by
  intro l
  induction l with
  | nil => intro seen _ _; rfl
  | cons a rest ih =>
    intro seen hnd hs
    rw [dedupGo, if_neg (hs a (List.mem_cons_self _ _))]
    congr 1
    refine ih (List.nodup_cons.mp hnd).2 ?_
    intro x hx
    simp only [List.mem_cons, not_or]
    exact ⟨fun hxa => (List.nodup_cons.mp hnd).1 (hxa ▸ hx),
      hs x (List.mem_cons_of_mem _ hx)⟩

theorem firstOccIdx_cons_self (x : GoString) (l : List GoString) :
    firstOccIdx x (x :: l) = 0 := by
  simp [firstOccIdx, List.findIdx_cons]

theorem firstOccIdx_cons_ne {x y : GoString} (l : List GoString) (h : ¬y = x) :
    firstOccIdx x (y :: l) = firstOccIdx x l + 1 := by
  simp [firstOccIdx, List.findIdx_cons, h]

/-- The deduplicated list is ordered by the index of the first occurrence in the
original list. -/
theorem dedupGo_pairwise : ∀ (l seen : List GoString),
    (dedupGo l seen).Pairwise (fun x y => firstOccIdx x l < firstOccIdx y l) := by
  intro l
  induction l with
  | nil => intro seen; simp [dedupGo]
  | cons a rest ih =>
    intro seen
    by_cases ha : a ∈ seen
    · rw [dedupGo, if_pos ha]
      refine (ih seen).imp_of_mem ?_
      intro x y hx hy hlt
      have hxs := dedupGo_mem.mp hx
      have hys := dedupGo_mem.mp hy
      have hxa : ¬a = x := fun hh => hxs.2 (hh ▸ ha)
      have hya : ¬a = y := fun hh => hys.2 (hh ▸ ha)
      rw [firstOccIdx_cons_ne _ hxa, firstOccIdx_cons_ne _ hya]
      omega
    · rw [dedupGo, if_neg ha]
      refine List.pairwise_cons.mpr ⟨?_, ?_⟩
      · intro y hy
        have hys := dedupGo_mem.mp hy
        have hya : ¬y = a := by
          intro hh
          exact hys.2 (hh ▸ List.mem_cons_self _ _)
        rw [firstOccIdx_cons_self, firstOccIdx_cons_ne _ (fun hh => hya hh.symm)]
        omega
      · refine (ih (a :: seen)).imp_of_mem ?_
        intro x y hx hy hlt
        have hxs := dedupGo_mem.mp hx
        have hys := dedupGo_mem.mp hy
        have hxa : ¬a = x := by
          intro hh
          exact hxs.2 (hh ▸ List.mem_cons_self _ _)
        have hya : ¬a = y := by
          intro hh
          exact hys.2 (hh ▸ List.mem_cons_self _ _)
        rw [firstOccIdx_cons_ne _ hxa, firstOccIdx_cons_ne _ hya]
        omega

/-- Appending a port strictly lengthens a string. -/
theorem length_lt_joinHostPort (a p : GoString) : a.length < (joinHostPort a p).length := by
  unfold joinHostPort
  split
  all_goals simp
  all_goals omega

/-- Under the bracket-freeness side conditions, `normalizeAddresses` is
idempotent. -/
theorem normalizeAddresses_idempotent (L : List GoString) (p : GoString)
    (hL : ∀ a ∈ L, '[' ∉ a ∧ ']' ∉ a) (hp1 : ':' ∉ p) (hp2 : '[' ∉ p) (hp3 : ']' ∉ p) :
    normalizeAddresses (normalizeAddresses L p) p = normalizeAddresses L p := by
  unfold normalizeAddresses removeDuplicateAddresses
  have hfix : ∀ x ∈ dedupGo (L.map (fun a => normalizeAddress a p)) [],
      normalizeAddress x p = x := by
    intro x hx
    have hxM := (dedupGo_mem.mp hx).1
    obtain ⟨a, haL, rfl⟩ := List.mem_map.mp hxM
    exact normalizeAddress_idem (hL a haL).1 (hL a haL).2 hp1 hp2 hp3
  have hmap : (dedupGo (L.map (fun a => normalizeAddress a p)) []).map
      (fun a => normalizeAddress a p)
      = dedupGo (L.map (fun a => normalizeAddress a p)) [] := by
    refine (List.map_congr_left hfix).trans (List.map_id _)
  rw [hmap]
  exact dedupGo_eq_self (dedupGo_nodup _ _) (fun x _ => List.not_mem_nil x)

/-- Structural guarantees of `normalizeAddresses`: splitter-accepted entries,
no duplicates, a subsequence of the normalized input, same members, ordered by
first occurrence. -/
theorem normalizeAddresses_spec (L : List GoString) (p : GoString)
    (hL : ∀ a ∈ L, '[' ∉ a ∧ ']' ∉ a) (hp1 : ':' ∉ p) (hp2 : '[' ∉ p) (hp3 : ']' ∉ p) :
    (∀ e ∈ normalizeAddresses L p, ∃ hostPort, splitHostPort e = .ok hostPort) ∧
    (normalizeAddresses L p).Nodup ∧
    List.Sublist (normalizeAddresses L p) (L.map (fun a => normalizeAddress a p)) ∧
    (∀ e, e ∈ normalizeAddresses L p ↔ e ∈ L.map (fun a => normalizeAddress a p)) ∧
    (normalizeAddresses L p).Pairwise
      (fun x y => firstOccIdx x (L.map (fun a => normalizeAddress a p))
        < firstOccIdx y (L.map (fun a => normalizeAddress a p))) := by
  refine ⟨?_, dedupGo_nodup _ _, dedupGo_sublist _ _, ?_, dedupGo_pairwise _ _⟩
  · intro e he
    have heM := (dedupGo_mem.mp he).1
    obtain ⟨a, haL, rfl⟩ := List.mem_map.mp heM
    exact splitHostPort_normalizeAddress_isOk (hL a haL).1 (hL a haL).2 hp1 hp2 hp3
  · intro e
    rw [show normalizeAddresses L p
        = dedupGo (L.map (fun a => normalizeAddress a p)) [] from rfl, dedupGo_mem]
    simp

/-! ### Stage lemmas for the configuration pipeline -/

@[simp] theorem exceptBind_ok (a : α) (f : α → Except ε β) : (Except.ok a).bind f = f a := rfl

@[simp] theorem exceptBind_error (e : ε) (f : α → Except ε β) :
    (Except.error e : Except ε α).bind f = .error e := rfl

theorem selectNetwork_ok {env : Env} {cfg c : Config} (h : selectNetwork env cfg = .ok c) :
    miscOf c = miscOf cfg ∧ blockOf c = blockOf cfg ∧
    c.ActiveNetParams = selectedNetParams env cfg ∧ netFlagCount cfg ≤ 1 := by
  unfold selectNetwork at h
  split at h
  · exact Except.noConfusion h
  · rename_i hle
    injection h with h
    subst h
    exact ⟨rfl, rfl, rfl, by omega⟩

theorem selectNetwork_error {env : Env} {cfg : Config} (h : 1 < netFlagCount cfg) :
    selectNetwork env cfg = .error .multipleNetworksSelected := by
  unfold selectNetwork
  rw [if_pos h]

theorem namespaceDirs_preserves (env : Env) (cfg : Config) :
    miscOf (namespaceDirs env cfg) = miscOf cfg ∧
    blockOf (namespaceDirs env cfg) = blockOf cfg ∧
    (namespaceDirs env cfg).ActiveNetParams = cfg.ActiveNetParams :=
  ⟨rfl, rfl, rfl⟩

theorem checkDbType_ok {env : Env} {cfg c : Config} (h : checkDbType env cfg = .ok c) :
    c = cfg := by
  unfold checkDbType at h
  split at h
  · injection h with h; exact h.symm
  · exact Except.noConfusion h

theorem checkProfilePort_ok {cfg c : Config} (h : checkProfilePort cfg = .ok c) : c = cfg := by
  unfold checkProfilePort at h
  split at h
  · injection h with h; exact h.symm
  · split at h
    · exact Except.noConfusion h
    · split at h
      · exact Except.noConfusion h
      · injection h with h; exact h.symm

theorem checkBanDuration_ok {cfg c : Config} (h : checkBanDuration cfg = .ok c) : c = cfg := by
  unfold checkBanDuration at h
  split at h
  · exact Except.noConfusion h
  · injection h with h; exact h.symm

theorem checkPeerLists_ok {cfg c : Config} (h : checkPeerLists cfg = .ok c) : c = cfg := by
  unfold checkPeerLists at h
  split at h
  · exact Except.noConfusion h
  · injection h with h; exact h.symm

theorem disableListenStep_preserves (cfg : Config) :
    miscOf (disableListenStep cfg) = miscOf cfg ∧
    blockOf (disableListenStep cfg) = blockOf cfg ∧
    (disableListenStep cfg).ActiveNetParams = cfg.ActiveNetParams := by
  unfold disableListenStep
  split
  · exact ⟨rfl, rfl, rfl⟩
  · exact ⟨rfl, rfl, rfl⟩

theorem connectSeedStep_preserves (cfg : Config) :
    miscOf (connectSeedStep cfg) = miscOf cfg ∧
    blockOf (connectSeedStep cfg) = blockOf cfg ∧
    (connectSeedStep cfg).ActiveNetParams = cfg.ActiveNetParams := by
  unfold connectSeedStep
  split
  · exact ⟨rfl, rfl, rfl⟩
  · exact ⟨rfl, rfl, rfl⟩

theorem defaultListenerStep_preserves (cfg : Config) :
    miscOf (defaultListenerStep cfg) = miscOf cfg ∧
    blockOf (defaultListenerStep cfg) = blockOf cfg ∧
    (defaultListenerStep cfg).ActiveNetParams = cfg.ActiveNetParams := by
  unfold defaultListenerStep
  split
  · exact ⟨rfl, rfl, rfl⟩
  · exact ⟨rfl, rfl, rfl⟩

theorem adjustListenOptions_preserves (cfg : Config) :
    miscOf (adjustListenOptions cfg) = miscOf cfg ∧
    blockOf (adjustListenOptions cfg) = blockOf cfg ∧
    (adjustListenOptions cfg).ActiveNetParams = cfg.ActiveNetParams := by
  unfold adjustListenOptions
  obtain ⟨m1, b1, n1⟩ := disableListenStep_preserves cfg
  obtain ⟨m2, b2, n2⟩ := connectSeedStep_preserves (disableListenStep cfg)
  obtain ⟨m3, b3, n3⟩ := defaultListenerStep_preserves (connectSeedStep (disableListenStep cfg))
  exact ⟨(m3.trans m2).trans m1, (b3.trans b2).trans b1, (n3.trans n2).trans n1⟩

theorem disableRPCStep_preserves (cfg : Config) :
    miscOf (disableRPCStep cfg) = miscOf cfg ∧
    blockOf (disableRPCStep cfg) = blockOf cfg ∧
    (disableRPCStep cfg).ActiveNetParams = cfg.ActiveNetParams := by
  unfold disableRPCStep
  split
  · exact ⟨rfl, rfl, rfl⟩
  · exact ⟨rfl, rfl, rfl⟩

theorem defaultRPCListenersStep_ok {env : Env} {cfg c : Config}
    (h : defaultRPCListenersStep env cfg = .ok c) :
    miscOf c = miscOf cfg ∧ blockOf c = blockOf cfg ∧
    c.ActiveNetParams = cfg.ActiveNetParams := by
  unfold defaultRPCListenersStep at h
  split at h
  · split at h
    · exact Except.noConfusion h
    · injection h with h
      subst h
      exact ⟨rfl, rfl, rfl⟩
  · injection h with h
    subst h
    exact ⟨rfl, rfl, rfl⟩

theorem applyRPCDefaults_ok {env : Env} {cfg c : Config} (h : applyRPCDefaults env cfg = .ok c) :
    miscOf c = miscOf cfg ∧ blockOf c = blockOf cfg ∧
    c.ActiveNetParams = cfg.ActiveNetParams := by
  unfold applyRPCDefaults at h
  obtain ⟨m1, b1, n1⟩ := disableRPCStep_preserves cfg
  obtain ⟨m2, b2, n2⟩ := defaultRPCListenersStep_ok h
  exact ⟨m2.trans m1, b2.trans b1, n2.trans n1⟩

theorem limitBlockSizes_ok {cfg c : Config} (h : limitBlockSizes cfg = .ok c) :
    miscOf c = miscOf cfg ∧ c.ActiveNetParams = cfg.ActiveNetParams ∧
    c.BlockMaxSize = cfg.BlockMaxSize ∧
    c.BlockPrioritySize = minUint32 cfg.BlockPrioritySize cfg.BlockMaxSize ∧
    c.BlockMinSize = minUint32 cfg.BlockMinSize cfg.BlockMaxSize ∧
    blockMaxSizeMin ≤ cfg.BlockMaxSize ∧ cfg.BlockMaxSize ≤ blockMaxSizeMax := by
  unfold limitBlockSizes at h
  split at h
  · exact Except.noConfusion h
  · rename_i hrange
    push_neg at hrange
    injection h with h
    subst h
    exact ⟨rfl, rfl, rfl, rfl, rfl, hrange.1, hrange.2⟩

theorem limitBlockSizes_error {cfg : Config}
    (h : cfg.BlockMaxSize < blockMaxSizeMin ∨ blockMaxSizeMax < cfg.BlockMaxSize) :
    limitBlockSizes cfg = .error .blockMaxSizeOutOfRange := by
  unfold limitBlockSizes
  rw [if_pos h]

theorem parseMiningAddrs_ok {env : Env} {cfg c : Config} (h : parseMiningAddrs env cfg = .ok c) :
    miscOf c = miscOf cfg ∧ blockOf c = blockOf cfg ∧
    c.ActiveNetParams = cfg.ActiveNetParams := by
  unfold parseMiningAddrs at h
  cases hgw : decodeCheckedAddrs env cfg.ActiveNetParams .getWorkKeyDecodeFailed
      .getWorkKeyWrongNetwork cfg.GetWorkKeys with
  | error e => rw [hgw, exceptBind_error] at h; exact Except.noConfusion h
  | ok gw =>
    rw [hgw, exceptBind_ok] at h
    cases hma : decodeCheckedAddrs env cfg.ActiveNetParams .miningAddrDecodeFailed
        .miningAddrWrongNetwork cfg.MiningAddrs with
    | error e => rw [hma, exceptBind_error] at h; exact Except.noConfusion h
    | ok ma =>
      rw [hma, exceptBind_ok] at h
      split at h
      · exact Except.noConfusion h
      · injection h with h
        subst h
        exact ⟨rfl, rfl, rfl⟩

theorem parseMiningAddrs_noAddrs {env : Env} {cfg : Config} (hg : cfg.Generate = true)
    (hk : cfg.GetWorkKeys = []) (hm : cfg.MiningAddrs = []) :
    parseMiningAddrs env cfg = .error .noMiningAddrs := by
  unfold parseMiningAddrs
  rw [hk, hm]
  show (Except.ok []).bind _ = _
  rw [exceptBind_ok]
  show (Except.ok []).bind _ = _
  rw [exceptBind_ok]
  rw [if_pos ⟨hg, rfl⟩]

/-- When every string in the list decodes to an address of the active network,
the decoding loop succeeds and yields one address per input string. -/
theorem decodeCheckedAddrs_all_ok {env : Env} {params : NetParams}
    {decodeErr wrongNetErr : GoString → LoadError} :
    ∀ {strs : List GoString},
    (∀ s ∈ strs, ∃ addr, env.decodeAddress s params = some addr ∧
      env.isForNet addr params = true) →
    ∃ addrs : List Address,
      decodeCheckedAddrs env params decodeErr wrongNetErr strs = .ok addrs ∧
      addrs.length = strs.length := by
  intro strs
  induction strs with
  | nil => intro _; exact ⟨[], rfl, rfl⟩
  | cons s rest ih =>
    intro h
    obtain ⟨addr, hdec, hnet⟩ := h s (List.mem_cons_self _ _)
    obtain ⟨addrs, heq, hlen⟩ := ih (fun x hx => h x (List.mem_cons_of_mem _ hx))
    refine ⟨addr :: addrs, ?_, by simp [hlen]⟩
    unfold decodeCheckedAddrs
    rw [hdec]
    dsimp only
    rw [if_pos hnet, heq]
    rfl

/-- With no getwork keys and a non-empty mining-address list whose entries all
decode to addresses of the active network, the mining stage succeeds (the
combined list is non-empty, so the generation check cannot fire). -/
theorem parseMiningAddrs_all_valid {env : Env} {cfg : Config}
    (hk : cfg.GetWorkKeys = []) (hm : cfg.MiningAddrs ≠ [])
    (hall : ∀ a ∈ cfg.MiningAddrs, ∃ addr,
      env.decodeAddress a cfg.ActiveNetParams = some addr ∧
      env.isForNet addr cfg.ActiveNetParams = true) :
    ∃ addrs, parseMiningAddrs env cfg = .ok { cfg with MiningAddrsS := [] ++ addrs } := by
  obtain ⟨ma, hma, hlen⟩ := decodeCheckedAddrs_all_ok hall
  refine ⟨ma, ?_⟩
  unfold parseMiningAddrs
  rw [hk]
  show (Except.ok []).bind _ = _
  rw [exceptBind_ok, hma, exceptBind_ok, if_neg ?_]
  rintro ⟨-, hcon⟩
  rw [List.nil_append] at hcon
  rw [hcon] at hlen
  exact hm (List.length_eq_zero.mp hlen.symm)

theorem normalizeConfigAddresses_preserves (cfg : Config) :
    miscOf (normalizeConfigAddresses cfg) = miscOf cfg ∧
    blockOf (normalizeConfigAddresses cfg) = blockOf cfg ∧
    (normalizeConfigAddresses cfg).ActiveNetParams = cfg.ActiveNetParams :=
  ⟨rfl, rfl, rfl⟩

theorem bindClearDialLookup_preserves (cfg : Config) :
    miscOf (bindClearDialLookup cfg) = miscOf cfg ∧
    blockOf (bindClearDialLookup cfg) = blockOf cfg ∧
    (bindClearDialLookup cfg).ActiveNetParams = cfg.ActiveNetParams :=
  ⟨rfl, rfl, rfl⟩

theorem bindOnionDialLookup_preserves (cfg : Config) :
    miscOf (bindOnionDialLookup cfg) = miscOf cfg ∧
    blockOf (bindOnionDialLookup cfg) = blockOf cfg ∧
    (bindOnionDialLookup cfg).ActiveNetParams = cfg.ActiveNetParams ∧
    (bindOnionDialLookup cfg).Dial = cfg.Dial ∧
    (bindOnionDialLookup cfg).Lookup = cfg.Lookup := by
  unfold bindOnionDialLookup
  split
  · exact ⟨rfl, rfl, rfl, rfl, rfl⟩
  · exact ⟨rfl, rfl, rfl, rfl, rfl⟩

theorem disableOnionStep_preserves (cfg : Config) :
    miscOf (disableOnionStep cfg) = miscOf cfg ∧
    blockOf (disableOnionStep cfg) = blockOf cfg ∧
    (disableOnionStep cfg).ActiveNetParams = cfg.ActiveNetParams ∧
    (disableOnionStep cfg).Dial = cfg.Dial ∧
    (disableOnionStep cfg).Lookup = cfg.Lookup := by
  unfold disableOnionStep
  split
  · exact ⟨rfl, rfl, rfl, rfl, rfl⟩
  · exact ⟨rfl, rfl, rfl, rfl, rfl⟩

theorem setupDialLookup_preserves (cfg : Config) :
    miscOf (setupDialLookup cfg) = miscOf cfg ∧
    blockOf (setupDialLookup cfg) = blockOf cfg ∧
    (setupDialLookup cfg).ActiveNetParams = cfg.ActiveNetParams := by
  unfold setupDialLookup
  obtain ⟨m1, b1, n1⟩ := bindClearDialLookup_preserves cfg
  obtain ⟨m2, b2, n2, _, _⟩ := bindOnionDialLookup_preserves (bindClearDialLookup cfg)
  obtain ⟨m3, b3, n3, _, _⟩ :=
    disableOnionStep_preserves (bindOnionDialLookup (bindClearDialLookup cfg))
  exact ⟨(m3.trans m2).trans m1, (b3.trans b2).trans b1, (n3.trans n2).trans n1⟩

theorem miscOf_eq {a b : Config} (h : miscOf a = miscOf b) :
    a.Generate = b.Generate ∧ a.GetWorkKeys = b.GetWorkKeys ∧ a.MiningAddrs = b.MiningAddrs ∧
    a.NoOnion = b.NoOnion ∧ a.Proxy = b.Proxy ∧ a.ProxyUser = b.ProxyUser ∧
    a.ProxyPass = b.ProxyPass ∧ a.OnionProxy = b.OnionProxy ∧
    a.OnionProxyUser = b.OnionProxyUser ∧ a.OnionProxyPass = b.OnionProxyPass := by
  unfold miscOf at h
  exact ⟨congrArg (fun t => t.1) h, congrArg (fun t => t.2.1) h,
    congrArg (fun t => t.2.2.1) h, congrArg (fun t => t.2.2.2.1) h,
    congrArg (fun t => t.2.2.2.2.1) h, congrArg (fun t => t.2.2.2.2.2.1) h,
    congrArg (fun t => t.2.2.2.2.2.2.1) h, congrArg (fun t => t.2.2.2.2.2.2.2.1) h,
    congrArg (fun t => t.2.2.2.2.2.2.2.2.1) h, congrArg (fun t => t.2.2.2.2.2.2.2.2.2) h⟩

theorem blockOf_eq {a b : Config} (h : blockOf a = blockOf b) :
    a.BlockMaxSize = b.BlockMaxSize ∧ a.BlockPrioritySize = b.BlockPrioritySize ∧
    a.BlockMinSize = b.BlockMinSize := by
  unfold blockOf at h
  exact ⟨congrArg (fun t => t.1) h, congrArg (fun t => t.2.1) h,
    congrArg (fun t => t.2.2) h⟩

/-- What a successful run of the stages up to block-size limiting guarantees
about its output in terms of the input configuration. -/
theorem preMiningPipeline_ok_inv {env : Env} {cfg c9 : Config}
    (h : preMiningPipeline env cfg = .ok c9) :
    miscOf c9 = miscOf cfg ∧ c9.ActiveNetParams = selectedNetParams env cfg ∧
    c9.BlockMaxSize = cfg.BlockMaxSize ∧
    c9.BlockPrioritySize = minUint32 cfg.BlockPrioritySize cfg.BlockMaxSize ∧
    c9.BlockMinSize = minUint32 cfg.BlockMinSize cfg.BlockMaxSize ∧
    blockMaxSizeMin ≤ cfg.BlockMaxSize ∧ cfg.BlockMaxSize ≤ blockMaxSizeMax ∧
    netFlagCount cfg ≤ 1 := by
  unfold preMiningPipeline at h
  cases h1 : selectNetwork env cfg with
  | error e => rw [h1, exceptBind_error] at h; exact Except.noConfusion h
  | ok c1 =>
  rw [h1, exceptBind_ok] at h
  obtain ⟨m1, b1, net1, hflags⟩ := selectNetwork_ok h1
  obtain ⟨mn, bn, nn⟩ := namespaceDirs_preserves env c1
  cases h3 : checkDbType env (namespaceDirs env c1) with
  | error e => rw [h3, exceptBind_error] at h; exact Except.noConfusion h
  | ok c3 =>
  rw [h3, exceptBind_ok] at h
  have e3 := checkDbType_ok h3
  subst e3
  cases h4 : checkProfilePort (namespaceDirs env c1) with
  | error e => rw [h4, exceptBind_error] at h; exact Except.noConfusion h
  | ok c4 =>
  rw [h4, exceptBind_ok] at h
  have e4 := checkProfilePort_ok h4
  subst e4
  cases h5 : checkBanDuration (namespaceDirs env c1) with
  | error e => rw [h5, exceptBind_error] at h; exact Except.noConfusion h
  | ok c5 =>
  rw [h5, exceptBind_ok] at h
  have e5 := checkBanDuration_ok h5
  subst e5
  cases h6 : checkPeerLists (namespaceDirs env c1) with
  | error e => rw [h6, exceptBind_error] at h; exact Except.noConfusion h
  | ok c6 =>
  rw [h6, exceptBind_ok] at h
  have e6 := checkPeerLists_ok h6
  subst e6
  obtain ⟨ma, ba, na⟩ := adjustListenOptions_preserves (namespaceDirs env c1)
  cases h8 : applyRPCDefaults env (adjustListenOptions (namespaceDirs env c1)) with
  | error e => rw [h8, exceptBind_error] at h; exact Except.noConfusion h
  | ok c8 =>
  rw [h8, exceptBind_ok] at h
  obtain ⟨mr, br, nr⟩ := applyRPCDefaults_ok h8
  obtain ⟨ml, nl, bmax, bprio, bmin, hlo, hhi⟩ := limitBlockSizes_ok h
  have bchain : blockOf c8 = blockOf cfg := br.trans (ba.trans (bn.trans b1))
  obtain ⟨eMax, ePrio, eMin⟩ := blockOf_eq bchain
  refine ⟨ml.trans (mr.trans (ma.trans (mn.trans m1))),
    nl.trans (nr.trans (na.trans (nn.trans net1))), bmax.trans eMax, ?_, ?_,
    eMax ▸ hlo, eMax ▸ hhi, hflags⟩
  · rw [bprio, ePrio, eMax]
  · rw [bmin, eMin, eMax]

/-- Inversion of a successful full resolution. -/
theorem resolveFromParsed_ok_inv {cfg : Config} {rem : List GoString} {env : Env}
    {c : Config} {rem2 : List GoString} (h : resolveFromParsed cfg rem env = .ok (c, rem2)) :
    rem2 = rem ∧ ∃ c9 c10, preMiningPipeline env cfg = .ok c9 ∧
      parseMiningAddrs env c9 = .ok c10 ∧
      c = setupDialLookup (normalizeConfigAddresses c10) := by
  unfold resolveFromParsed at h
  cases h9 : preMiningPipeline env cfg with
  | error e => rw [h9, exceptBind_error] at h; exact Except.noConfusion h
  | ok c9 =>
  rw [h9, exceptBind_ok] at h
  cases h10 : parseMiningAddrs env c9 with
  | error e => rw [h10, exceptBind_error] at h; exact Except.noConfusion h
  | ok c10 =>
  rw [h10, exceptBind_ok] at h
  injection h with h
  refine ⟨?_, c9, c10, rfl, h10, ?_⟩
  · exact (congrArg Prod.snd h).symm
  · exact (congrArg Prod.fst h).symm

/-- More than one selector flag makes the whole resolution fail with the
multiple-networks error. -/
theorem resolveFromParsed_multiNet {cfg : Config} {rem : List GoString} {env : Env}
    (h : 1 < netFlagCount cfg) :
    resolveFromParsed cfg rem env = .error .multipleNetworksSelected := by
  unfold resolveFromParsed preMiningPipeline
  rw [selectNetwork_error h]
  rfl

/-- A block-size ceiling outside the supported range makes the whole
resolution fail. -/
theorem resolveFromParsed_blockMax_error {cfg : Config} {rem : List GoString} {env : Env}
    (h : cfg.BlockMaxSize < blockMaxSizeMin ∨ blockMaxSizeMax < cfg.BlockMaxSize) :
    exceptIsOk (resolveFromParsed cfg rem env) = false := by
  cases hr : resolveFromParsed cfg rem env with
  | error e => rfl
  | ok p =>
    obtain ⟨c, rem2⟩ := p
    obtain ⟨-, c9, c10, h9, -, -⟩ := resolveFromParsed_ok_inv hr
    obtain ⟨-, -, -, -, -, hlo, hhi, -⟩ := preMiningPipeline_ok_inv h9
    simp only [blockMaxSizeMin, blockMaxSizeMax, maxBlockPayload] at h hlo hhi
    omega

theorem bindClearDialLookup_fields (cfg : Config) :
    (bindClearDialLookup cfg).Dial
      = some (if cfg.Proxy ≠ [] then .socks cfg.Proxy cfg.ProxyUser cfg.ProxyPass else .net) ∧
    (bindClearDialLookup cfg).Lookup
      = some (if cfg.Proxy ≠ [] ∧ cfg.NoOnion = false then .tor cfg.Proxy else .system) :=
  ⟨rfl, rfl⟩

theorem setupDialLookup_clear_fields (cfg : Config) :
    (setupDialLookup cfg).Dial
      = some (if cfg.Proxy ≠ [] then .socks cfg.Proxy cfg.ProxyUser cfg.ProxyPass else .net) ∧
    (setupDialLookup cfg).Lookup
      = some (if cfg.Proxy ≠ [] ∧ cfg.NoOnion = false then .tor cfg.Proxy else .system) := by
  unfold setupDialLookup
  obtain ⟨_, _, _, d3, l3⟩ :=
    disableOnionStep_preserves (bindOnionDialLookup (bindClearDialLookup cfg))
  obtain ⟨_, _, _, d2, l2⟩ := bindOnionDialLookup_preserves (bindClearDialLookup cfg)
  exact ⟨d3.trans d2, l3.trans l2⟩

theorem setupDialLookup_onion_disabled {cfg : Config} (h : cfg.NoOnion = true) :
    (setupDialLookup cfg).Oniondial = some .disabled ∧
    (setupDialLookup cfg).Onionlookup = some .disabled := by
  unfold setupDialLookup disableOnionStep
  have hno : (bindOnionDialLookup (bindClearDialLookup cfg)).NoOnion = true := by
    obtain ⟨m2, _, _, _, _⟩ := bindOnionDialLookup_preserves (bindClearDialLookup cfg)
    obtain ⟨m1, _, _⟩ := bindClearDialLookup_preserves cfg
    have hcomp := (miscOf_eq (m2.trans m1)).2.2.2.1
    rw [hcomp, h]
  rw [if_pos hno]
  exact ⟨rfl, rfl⟩

theorem minUint32_le_right (a b : Nat) : minUint32 a b ≤ b := by
  unfold minUint32
  split <;> omega

theorem loadConfigRest_flags (preCfg : Config)
    (cliParse : Config → Except GoString (Config × List GoString)) (env : Env)
    (cfg : Config) (opened : Bool) :
    (loadConfigRest preCfg cliParse env cfg opened false).openedConfigFile = opened ∧
    (loadConfigRest preCfg cliParse env cfg opened false).warnedConfigFile = false := by
  unfold loadConfigRest
  split
  · exact ⟨rfl, rfl⟩
  · split
    · exact ⟨rfl, rfl⟩
    · exact ⟨rfl, rfl⟩

/-- When the pre-parse selected the regression or simulation network and left
the config-file path at its default, the file stage is skipped entirely. -/
theorem loadConfig_skips_file {preCfg : Config}
    {readConfigFile : GoString → FileReadResult}
    {cliParse : Config → Except GoString (Config × List GoString)} {env : Env}
    (h1 : preCfg.RegressionTest = true ∨ preCfg.SimNet = true)
    (h2 : preCfg.ConfigFile = defaultConfigFile env) :
    loadConfig preCfg readConfigFile cliParse env
      = loadConfigRest preCfg cliParse env (defaultConfig env) false false := by
  unfold loadConfig
  rw [if_neg]
  rintro (⟨ha, hb⟩ | hne)
  · rcases h1 with h1 | h1
    · rw [h1] at ha; exact Bool.noConfusion ha
    · rw [h1] at hb; exact Bool.noConfusion hb
  · exact hne h2

/-! ### The claims -/

/-- C1: for every configuration in which more than one of the three network
selector flags (test, regression, simulation) is set, resolution fails with
the multiple-networks error — regardless of which two or three are set — and
no effective configuration is returned. -/
theorem claim_C1 (cfg : Config) (rem : List GoString) (env : Env)
    (h : 2 ≤ netFlagCount cfg) :
    resolveFromParsed cfg rem env = .error .multipleNetworksSelected :=
  resolveFromParsed_multiNet (by omega)

/-- C1 witness: testnet and simnet selected together. -/
theorem claim_C1_witness :
    resolveFromParsed { witCfgOk with TestNet3 := true, SimNet := true } [] witEnv
      = .error .multipleNetworksSelected :=
  claim_C1 { witCfgOk with TestNet3 := true, SimNet := true } [] witEnv (by decide)

/-- C3: a block-size ceiling strictly below 1000 or strictly above the
protocol maximum minus 1000 always makes resolution fail; for a ceiling inside
the range, the priority and minimum sizes are silently clamped to the ceiling
by taking minima and never cause an error, so every successfully returned
configuration satisfies both inequalities. -/
theorem claim_C3 (cfg : Config) (rem : List GoString) (env : Env) :
    (cfg.BlockMaxSize < blockMaxSizeMin ∨ blockMaxSizeMax < cfg.BlockMaxSize →
      exceptIsOk (resolveFromParsed cfg rem env) = false) ∧
    (∀ c rem2, resolveFromParsed cfg rem env = .ok (c, rem2) →
      c.BlockMaxSize = cfg.BlockMaxSize ∧
      blockMaxSizeMin ≤ c.BlockMaxSize ∧ c.BlockMaxSize ≤ blockMaxSizeMax ∧
      c.BlockPrioritySize = minUint32 cfg.BlockPrioritySize cfg.BlockMaxSize ∧
      c.BlockMinSize = minUint32 cfg.BlockMinSize cfg.BlockMaxSize ∧
      c.BlockPrioritySize ≤ c.BlockMaxSize ∧ c.BlockMinSize ≤ c.BlockMaxSize) := by
  constructor
  · exact fun h => resolveFromParsed_blockMax_error h
  · intro c rem2 hok
    obtain ⟨-, c9, c10, h9, h10, hc⟩ := resolveFromParsed_ok_inv hok
    obtain ⟨-, -, bmax9, bprio9, bmin9, hlo, hhi, -⟩ := preMiningPipeline_ok_inv h9
    obtain ⟨-, b10, -⟩ := parseMiningAddrs_ok h10
    obtain ⟨-, bN, -⟩ := normalizeConfigAddresses_preserves c10
    obtain ⟨-, bS, -⟩ := setupDialLookup_preserves (normalizeConfigAddresses c10)
    subst hc
    obtain ⟨eM, eP, eMin⟩ := blockOf_eq ((bS.trans bN).trans b10)
    have hM : (setupDialLookup (normalizeConfigAddresses c10)).BlockMaxSize
        = cfg.BlockMaxSize := eM.trans bmax9
    have hP : (setupDialLookup (normalizeConfigAddresses c10)).BlockPrioritySize
        = minUint32 cfg.BlockPrioritySize cfg.BlockMaxSize := eP.trans bprio9
    have hMin : (setupDialLookup (normalizeConfigAddresses c10)).BlockMinSize
        = minUint32 cfg.BlockMinSize cfg.BlockMaxSize := eMin.trans bmin9
    refine ⟨hM, ?_, ?_, hP, hMin, ?_, ?_⟩
    · rw [hM]; exact hlo
    · rw [hM]; exact hhi
    · rw [hP, hM]; exact minUint32_le_right _ _
    · rw [hMin, hM]; exact minUint32_le_right _ _

/-- C3 witness: a ceiling of 100 is rejected; with a ceiling of 2000 the
default priority size 50000 and a minimum size of 3000 are both clamped to
2000 and resolution succeeds. -/
theorem claim_C3_witness :
    exceptIsOk (resolveFromParsed { witCfgOk with BlockMaxSize := 100 } [] witEnv) = false ∧
    resultBlockSizes (resolveFromParsed
        { witCfgOk with BlockMaxSize := 2000, BlockMinSize := 3000 } [] witEnv)
      = some (2000, 2000, 2000) := by
  constructor
  · exact (claim_C3 { witCfgOk with BlockMaxSize := 100 } [] witEnv).1 (by decide)
  · have hv : exceptIsOk (resolveFromParsed
        { witCfgOk with BlockMaxSize := 2000, BlockMinSize := 3000 } [] witEnv) = true := by
      decide
    cases hr : resolveFromParsed
        { witCfgOk with BlockMaxSize := 2000, BlockMinSize := 3000 } [] witEnv with
    | error e => rw [hr] at hv; exact Bool.noConfusion hv
    | ok p =>
      obtain ⟨c, rem2⟩ := p
      obtain ⟨hM, -, -, hP, hMin, -, -⟩ :=
        (claim_C3 { witCfgOk with BlockMaxSize := 2000, BlockMinSize := 3000 } []
          witEnv).2 c rem2 hr
      unfold resultBlockSizes
      dsimp only
      rw [hM, hP, hMin]
      decide

/-- C2 counterexample: the generation flag is set and the mining-address list
is empty, yet resolution succeeds rather than failing with the
missing-mining-address error, because a decodable getwork key also populates
the combined mining list that the check inspects. -/
theorem claim_C2_counterexample :
    ({ witCfgOk with Generate := true, GetWorkKeys := ["k1".toList] } : Config).MiningAddrs = [] ∧
    ({ witCfgOk with Generate := true, GetWorkKeys := ["k1".toList] } : Config).Generate = true ∧
    exceptIsOk (resolveFromParsed
        { witCfgOk with Generate := true, GetWorkKeys := ["k1".toList] } [] witEnv)
      = true := by
  refine ⟨by decide, by decide, by decide⟩

/-- C2 (amended): provided the stages before mining-address validation
succeed, a set generation flag together with an empty mining-address list and
an empty getwork-key list fails with the missing-mining-address error; with no
getwork keys and at least one mining address, each decoding to an address that
belongs to the active network, the check passes and resolution succeeds. -/
theorem claim_C2_amended (cfg : Config) (rem : List GoString) (env : Env)
    (hpre : exceptIsOk (preMiningPipeline env cfg) = true) :
    (cfg.Generate = true → cfg.GetWorkKeys = [] → cfg.MiningAddrs = [] →
      resolveFromParsed cfg rem env = .error .noMiningAddrs) ∧
    (cfg.GetWorkKeys = [] → cfg.MiningAddrs ≠ [] →
      (∀ a ∈ cfg.MiningAddrs, ∃ addr,
        env.decodeAddress a (selectedNetParams env cfg) = some addr ∧
        env.isForNet addr (selectedNetParams env cfg) = true) →
      exceptIsOk (resolveFromParsed cfg rem env) = true) := by
  cases h9 : preMiningPipeline env cfg with
  | error e => rw [h9] at hpre; exact Bool.noConfusion hpre
  | ok c9 =>
  obtain ⟨m9, n9, -⟩ := preMiningPipeline_ok_inv h9
  obtain ⟨eGen, eKeys, eAddrs, -⟩ := miscOf_eq m9
  constructor
  · intro hg hk hm
    unfold resolveFromParsed
    rw [h9, exceptBind_ok,
      parseMiningAddrs_noAddrs (eGen.trans hg) (eKeys.trans hk) (eAddrs.trans hm)]
    rfl
  · intro hk hm hall
    obtain ⟨addrs, hpm⟩ := parseMiningAddrs_all_valid (eKeys.trans hk)
      (by rw [eAddrs]; exact hm) (by rw [eAddrs, n9]; exact hall)
    unfold resolveFromParsed
    rw [h9, exceptBind_ok, hpm, exceptBind_ok]
    rfl

/-- C2 witness: with nothing else configured, generation without any mining
address or getwork key fails with the missing-mining-address error, while two
decodable mining addresses resolve successfully. -/
theorem claim_C2_witness :
    resolveFromParsed { witCfgOk with Generate := true } [] witEnv
      = .error .noMiningAddrs ∧
    exceptIsOk (resolveFromParsed
        { witCfgOk with Generate := true, MiningAddrs := ["m1".toList, "m2".toList] }
        [] witEnv)
      = true := by
  constructor
  · exact (claim_C2_amended { witCfgOk with Generate := true } [] witEnv
      (by decide)).1 rfl rfl rfl
  · exact (claim_C2_amended
      { witCfgOk with Generate := true, MiningAddrs := ["m1".toList, "m2".toList] }
      [] witEnv (by decide)).2 rfl (by decide)
      (fun a _ => ⟨{ raw := a }, rfl, rfl⟩)

/-- C7: with the disable-onion flag set, every successful resolution returns a
configuration whose onion dial and onion lookup strategies are the disabled
ones — overriding any onion-proxy or clear-proxy binding — and the disabled
strategies fail with the tor-disabled error on every argument under every
runtime environment, never succeeding. -/
theorem claim_C7 (cfg : Config) (rem : List GoString) (env : Env)
    (h : cfg.NoOnion = true) :
    (∀ c rem2, resolveFromParsed cfg rem env = .ok (c, rem2) →
      c.Oniondial = some .disabled ∧ c.Onionlookup = some .disabled) ∧
    (∀ nenv a b, DialFn.run nenv .disabled a b = .error torDisabledMsg) ∧
    (∀ nenv host, LookupFn.run nenv .disabled host = .error torDisabledMsg) := by
  refine ⟨?_, fun _ _ _ => rfl, fun _ _ => rfl⟩
  intro c rem2 hok
  obtain ⟨-, c9, c10, h9, h10, hc⟩ := resolveFromParsed_ok_inv hok
  obtain ⟨m9, -⟩ := preMiningPipeline_ok_inv h9
  obtain ⟨m10, -, -⟩ := parseMiningAddrs_ok h10
  obtain ⟨mN, -, -⟩ := normalizeConfigAddresses_preserves c10
  have hno : (normalizeConfigAddresses c10).NoOnion = true := by
    have e1 := (miscOf_eq (mN.trans (m10.trans m9))).2.2.2.1
    rw [e1, h]
  subst hc
  exact setupDialLookup_onion_disabled hno

/-- C7 witness: the default configuration with onion routing disabled resolves
successfully and carries the disabled onion strategies, which fail when run. -/
theorem claim_C7_witness :
    resultOnionStrategies (resolveFromParsed { witCfgOk with NoOnion := true } [] witEnv)
      = some (some .disabled, some .disabled) ∧
    DialFn.run witNetEnv .disabled [] [] = .error torDisabledMsg ∧
    LookupFn.run witNetEnv .disabled [] = .error torDisabledMsg := by
  have hclaim := claim_C7 { witCfgOk with NoOnion := true } [] witEnv rfl
  have hv : exceptIsOk (resolveFromParsed
      { witCfgOk with NoOnion := true } [] witEnv) = true := by decide
  refine ⟨?_, hclaim.2.1 witNetEnv [] [], hclaim.2.2 witNetEnv []⟩
  cases hr : resolveFromParsed { witCfgOk with NoOnion := true } [] witEnv with
  | error e => rw [hr] at hv; exact Bool.noConfusion hv
  | ok p =>
    obtain ⟨c, rem2⟩ := p
    obtain ⟨hd, hl⟩ := hclaim.1 c rem2 hr
    unfold resultOnionStrategies
    dsimp only
    rw [hd, hl]

/-- C8: in every successfully returned configuration, an empty proxy setting
means direct dial and system DNS lookup; a configured proxy means socks dial
through it with the supplied credentials and tor lookup through the same
proxy, except that the disable-onion flag keeps the lookup on system DNS. -/
theorem claim_C8 (cfg : Config) (rem : List GoString) (env : Env) :
    ∀ c rem2, resolveFromParsed cfg rem env = .ok (c, rem2) →
      (c.Proxy = [] → c.Dial = some .net ∧ c.Lookup = some .system) ∧
      (c.Proxy ≠ [] →
        c.Dial = some (.socks c.Proxy c.ProxyUser c.ProxyPass) ∧
        (c.NoOnion = false → c.Lookup = some (.tor c.Proxy)) ∧
        (c.NoOnion = true → c.Lookup = some .system)) := by
  intro c rem2 hok
  obtain ⟨-, c9, c10, h9, h10, hc⟩ := resolveFromParsed_ok_inv hok
  subst hc
  obtain ⟨mS, -, -⟩ := setupDialLookup_preserves (normalizeConfigAddresses c10)
  obtain ⟨-, -, -, eNo, eProxy, eUser, ePass, -, -, -⟩ := miscOf_eq mS
  obtain ⟨hD, hL⟩ := setupDialLookup_clear_fields (normalizeConfigAddresses c10)
  constructor
  · intro hp
    have hpX : (normalizeConfigAddresses c10).Proxy = [] := eProxy.symm.trans hp
    constructor
    · rw [hD, if_neg (fun hcon => hcon hpX)]
    · rw [hL, if_neg (fun hcon => hcon.1 hpX)]
  · intro hp
    have hpX : (normalizeConfigAddresses c10).Proxy ≠ [] :=
      fun hcon => hp (eProxy.trans hcon)
    refine ⟨?_, ?_, ?_⟩
    · rw [eProxy, eUser, ePass, hD, if_pos hpX]
    · intro hno
      have hnoX : (normalizeConfigAddresses c10).NoOnion = false := eNo.symm.trans hno
      rw [eProxy, hL, if_pos ⟨hpX, hnoX⟩]
    · intro hno
      have hnoX : (normalizeConfigAddresses c10).NoOnion = true := eNo.symm.trans hno
      rw [hL, if_neg (fun hcon => Bool.noConfusion (hnoX.symm.trans hcon.2))]

/-- C8 witness: no proxy gives direct dial and system lookup; a proxy gives
socks dial with the credentials and tor lookup; the proxy plus disable-onion
keeps system lookup. -/
theorem claim_C8_witness :
    resultClearStrategies (resolveFromParsed witCfgOk [] witEnv)
      = some (some .net, some .system) ∧
    resultClearStrategies (resolveFromParsed witCfgProxy [] witEnv)
      = some (some (.socks "127.0.0.1:9050".toList "u".toList "pw".toList),
          some (.tor "127.0.0.1:9050".toList)) ∧
    resultClearStrategies (resolveFromParsed witCfgProxyNoOnion [] witEnv)
      = some (some (.socks "127.0.0.1:9050".toList "u".toList "pw".toList),
          some .system) := by
  refine ⟨?_, ?_, ?_⟩
  · have hv : exceptIsOk (resolveFromParsed witCfgOk [] witEnv) = true := by decide
    have hpi : resultProxyInfo (resolveFromParsed witCfgOk [] witEnv)
        = some ([], [], [], false) := by decide
    cases hr : resolveFromParsed witCfgOk [] witEnv with
    | error e => rw [hr] at hv; exact Bool.noConfusion hv
    | ok p =>
      obtain ⟨c, rem2⟩ := p
      rw [hr] at hpi
      unfold resultProxyInfo at hpi
      injection hpi with hpi
      have hproxy : c.Proxy = [] := congrArg (fun t => t.1) hpi
      obtain ⟨hd, hl⟩ := (claim_C8 witCfgOk [] witEnv c rem2 hr).1 hproxy
      unfold resultClearStrategies
      dsimp only
      rw [hd, hl]
  · have hv : exceptIsOk (resolveFromParsed witCfgProxy [] witEnv) = true := by decide
    have hpi : resultProxyInfo (resolveFromParsed witCfgProxy [] witEnv)
        = some ("127.0.0.1:9050".toList, "u".toList, "pw".toList, false) := by decide
    cases hr : resolveFromParsed witCfgProxy [] witEnv with
    | error e => rw [hr] at hv; exact Bool.noConfusion hv
    | ok p =>
      obtain ⟨c, rem2⟩ := p
      rw [hr] at hpi
      unfold resultProxyInfo at hpi
      injection hpi with hpi
      have hproxy : c.Proxy = "127.0.0.1:9050".toList := congrArg (fun t => t.1) hpi
      have huser : c.ProxyUser = "u".toList := congrArg (fun t => t.2.1) hpi
      have hpass : c.ProxyPass = "pw".toList := congrArg (fun t => t.2.2.1) hpi
      have hno : c.NoOnion = false := congrArg (fun t => t.2.2.2) hpi
      obtain ⟨hd, hl, -⟩ := (claim_C8 witCfgProxy [] witEnv c rem2 hr).2
        (by rw [hproxy]; exact fun hcon => List.noConfusion hcon)
      unfold resultClearStrategies
      dsimp only
      rw [hd, hl hno, hproxy, huser, hpass]
  · have hv : exceptIsOk (resolveFromParsed witCfgProxyNoOnion [] witEnv) = true := by decide
    have hpi : resultProxyInfo (resolveFromParsed witCfgProxyNoOnion [] witEnv)
        = some ("127.0.0.1:9050".toList, "u".toList, "pw".toList, true) := by decide
    cases hr : resolveFromParsed witCfgProxyNoOnion [] witEnv with
    | error e => rw [hr] at hv; exact Bool.noConfusion hv
    | ok p =>
      obtain ⟨c, rem2⟩ := p
      rw [hr] at hpi
      unfold resultProxyInfo at hpi
      injection hpi with hpi
      have hproxy : c.Proxy = "127.0.0.1:9050".toList := congrArg (fun t => t.1) hpi
      have huser : c.ProxyUser = "u".toList := congrArg (fun t => t.2.1) hpi
      have hpass : c.ProxyPass = "pw".toList := congrArg (fun t => t.2.2.1) hpi
      have hno : c.NoOnion = true := congrArg (fun t => t.2.2.2) hpi
      obtain ⟨hd, -, hl⟩ := (claim_C8 witCfgProxyNoOnion [] witEnv c rem2 hr).2
        (by rw [hproxy]; exact fun hcon => List.noConfusion hcon)
      unfold resultClearStrategies
      dsimp only
      rw [hd, hl hno, hproxy, huser, hpass]

/-- C9: in every run of the orchestrator in which the engine task completes
with an error before delivering a ready handle, the orchestrator returns that
error as its outcome and the recorded trace of manager calls is empty — in
particular, neither the privilege-drop operation nor the mark-started signal
is ever invoked. -/
theorem claim_C9 (err : GoString) (smgr : SMgr) :
    runFunc (.prematureExit (some err)) smgr = (some err, []) := rfl

/-- C10: when the lenient pre-parse found the regression-test or simulation
flag set and the config-file path still equals the built-in default, the
config file is never opened, no missing-file warning is recorded, and the
outcome is independent of what reading the file would have produced. -/
theorem claim_C10 (preCfg : Config) (readConfigFile : GoString → FileReadResult)
    (cliParse : Config → Except GoString (Config × List GoString)) (env : Env)
    (h1 : preCfg.RegressionTest = true ∨ preCfg.SimNet = true)
    (h2 : preCfg.ConfigFile = defaultConfigFile env) :
    (loadConfig preCfg readConfigFile cliParse env).openedConfigFile = false ∧
    (loadConfig preCfg readConfigFile cliParse env).warnedConfigFile = false ∧
    ∀ readOther : GoString → FileReadResult,
      loadConfig preCfg readOther cliParse env
        = loadConfig preCfg readConfigFile cliParse env := by
  rw [loadConfig_skips_file h1 h2]
  obtain ⟨ho, hw⟩ := loadConfigRest_flags preCfg cliParse env (defaultConfig env) false
  refine ⟨ho, hw, ?_⟩
  intro readOther
  rw [loadConfig_skips_file h1 h2]

/-- C10 witness: a regression-network pre-parse with the default config path
skips the file stage, and a missing file and a broken file produce identical
outcomes. -/
theorem claim_C10_witness :
    (loadConfig witPreCfgRegtest witReadMissing witCliNoop witEnv).openedConfigFile = false ∧
    (loadConfig witPreCfgRegtest witReadMissing witCliNoop witEnv).warnedConfigFile = false ∧
    loadConfig witPreCfgRegtest witReadBroken witCliNoop witEnv
      = loadConfig witPreCfgRegtest witReadMissing witCliNoop witEnv := by
  have hclaim := claim_C10 witPreCfgRegtest witReadMissing witCliNoop witEnv
    (Or.inl rfl) (by decide)
  exact ⟨hclaim.1, hclaim.2.1, hclaim.2.2 witReadBroken⟩

/-- C4 counterexample: the input entry has no port, the default port is glued
on as the claim describes, yet the resulting entry does not carry an explicit
port — the program's own splitter rejects it — so not every output entry of the
normalizer carries an explicit port. -/
theorem claim_C4_counterexample :
    normalizeAddresses ["[foo".toList] "8333".toList = ["[foo:8333".toList] ∧
    splitHostPort "[foo:8333".toList = .error .missingCloseBracket := by
  exact ⟨by decide, by decide⟩

/-- C4 (amended): for input entries free of square brackets and a default port
free of colons and square brackets, the normalizer returns a list in which
every entry carries an explicit port (the splitter accepts it), no two entries
are equal as strings, the output is a subsequence of the normalized input with
exactly its members, and entries appear in the order of the first occurrence
of their normalized form. -/
theorem claim_C4_amended (L : List GoString) (p : GoString)
    (hL : ∀ a ∈ L, '[' ∉ a ∧ ']' ∉ a) (hp1 : ':' ∉ p) (hp2 : '[' ∉ p) (hp3 : ']' ∉ p) :
    (∀ e ∈ normalizeAddresses L p, ∃ hostPort, splitHostPort e = .ok hostPort) ∧
    (normalizeAddresses L p).Nodup ∧
    List.Sublist (normalizeAddresses L p) (L.map (fun a => normalizeAddress a p)) ∧
    (∀ e, e ∈ normalizeAddresses L p ↔ e ∈ L.map (fun a => normalizeAddress a p)) ∧
    (normalizeAddresses L p).Pairwise
      (fun x y => firstOccIdx x (L.map (fun a => normalizeAddress a p))
        < firstOccIdx y (L.map (fun a => normalizeAddress a p))) :=
  normalizeAddresses_spec L p hL hp1 hp2 hp3

/-- C4 witness: a duplicated portless entry and a ported entry normalize to a
duplicate-free list whose first entry got the default port appended and is
accepted by the splitter. -/
theorem claim_C4_witness :
    (normalizeAddresses witAddrList "9".toList).Nodup ∧
    normalizeAddresses witAddrList "9".toList = ["a:9".toList, "a:1".toList] ∧
    exceptIsOk (splitHostPort "a:9".toList) = true := by
  have hclaim := claim_C4_amended witAddrList "9".toList (by decide) (by decide)
    (by decide) (by decide)
  refine ⟨hclaim.2.1, by decide, ?_⟩
  obtain ⟨hostPort, heq⟩ := hclaim.1 "a:9".toList (by decide)
  rw [heq]
  rfl

/-- C5 counterexample: normalizing twice differs from normalizing once on a
bracketed, portless entry, because the first pass appends the port to a string
the splitter still rejects, and the second pass appends it again. -/
theorem claim_C5_counterexample :
    normalizeAddresses (normalizeAddresses ["[bar".toList] "8333".toList) "8333".toList
      ≠ normalizeAddresses ["[bar".toList] "8333".toList := by
  decide

/-- C5 (amended): for input entries free of square brackets and a default port
free of colons and square brackets, normalizing twice equals normalizing
once. -/
theorem claim_C5_amended (L : List GoString) (p : GoString)
    (hL : ∀ a ∈ L, '[' ∉ a ∧ ']' ∉ a) (hp1 : ':' ∉ p) (hp2 : '[' ∉ p) (hp3 : ']' ∉ p) :
    normalizeAddresses (normalizeAddresses L p) p = normalizeAddresses L p :=
  normalizeAddresses_idempotent L p hL hp1 hp2 hp3

/-- C5 witness: idempotence on the concrete fixture list. -/
theorem claim_C5_witness :
    normalizeAddresses (normalizeAddresses witAddrList "9".toList) "9".toList
      = normalizeAddresses witAddrList "9".toList :=
  claim_C5_amended witAddrList "9".toList (by decide) (by decide) (by decide) (by decide)

/-- C6 counterexample: an address the splitter rejects for a reason other than
a missing port (too many colons) is not returned unchanged: the normalizer
glues the default port onto it. -/
theorem claim_C6_counterexample :
    splitHostPort "1:2:3".toList = .error .tooManyColons ∧
    normalizeAddress "1:2:3".toList "8333".toList ≠ "1:2:3".toList ∧
    normalizeAddress "1:2:3".toList "8333".toList = "[1:2:3]:8333".toList := by
  exact ⟨by decide, by decide, by decide⟩

/-- C6 (amended): for every address string the splitter rejects — for any
reason, including merely lacking a port — the normalizer returns the string
with the default port joined on, which is strictly longer than the input, so
malformed entries are never passed through unchanged; normalization itself is
a total function and never returns an error. -/
theorem claim_C6_amended (a p : GoString) (e : AddrError) (h : splitHostPort a = .error e) :
    normalizeAddress a p = joinHostPort a p ∧
    a.length < (normalizeAddress a p).length := by
  constructor
  · unfold normalizeAddress
    rw [h]
  · unfold normalizeAddress
    rw [h]
    exact length_lt_joinHostPort a p

/-- C6 witness: the too-many-colons rejection at a concrete address. -/
theorem claim_C6_witness :
    normalizeAddress "1:2:3".toList "8333".toList
      = joinHostPort "1:2:3".toList "8333".toList ∧
    ("1:2:3".toList : GoString).length
      < (normalizeAddress "1:2:3".toList "8333".toList).length :=
  claim_C6_amended "1:2:3".toList "8333".toList .tooManyColons (by decide)
